import Mathlib

/-
Verification of the HIGC tournament referee (open_spiel/higc/referee.cc,
open_spiel/higc/utils.cc).

The development shallowly embeds the parts of the referee that the checked
properties are about:
  * the per-bot error counters (`BotErrors`, referee.cc:585-594),
  * the per-turn act-phase response classification (`parseResponse` /
    `botAction`, referee.cc:324-368), including a faithful model of
    `strtol(response, &end, 10)`,
  * the asynchronous line reader (`getline_async`, referee.cc:44-65, and the
    inner read cycle of `ReadLineFromChannelStdout`, referee.cc:79-89),
  * the channel / reader-thread wiring of `Referee::StartPlayer`
    (referee.cc:171-194),
  * the tournament loop `Referee::PlayTournament` (referee.cc:510-583),
    with `PlayMatch` abstracted into the per-match data the loop consumes
    (per-bot accumulated errors, per-bot returns, history length), and the
    Welford mean/variance update (referee.cc:539-547).

Machine doubles of the source are modelled with exact rationals, and the
C++ `int` counters with naturals; the claims checked here are about exact
arithmetic on small values, where the two agree.
-/

namespace HigcReferee

/-! ## Error counters (BotErrors, referee.cc:585-594) -/

/-- Per-bot error tallies, `struct BotErrors` (referee.h declaration; fields
and arithmetic from referee.cc:585-594 and their uses). -/
structure BotErrors where
  protocol_error : Nat
  illegal_actions : Nat
  ponder_error : Nat
  time_over : Nat
deriving DecidableEq, Repr, Inhabited

/-- Source `BotErrors::total_errors` (referee.cc:592-594): the sum of the four
counters. -/
def BotErrors.total_errors (e : BotErrors) : Nat :=
  e.protocol_error + e.illegal_actions + e.ponder_error + e.time_over

/-- Source `BotErrors::Reset` (referee.cc:585-590) sets every counter to zero. -/
def BotErrors.reset : BotErrors := ⟨0, 0, 0, 0⟩

/-! ## Tournament settings (referee.h `TournamentSettings`) -/

/-- The referee's configuration knobs, as enumerated by the spec (§3) and
used in referee.cc.  Times are in milliseconds. -/
structure TournamentSettings where
  timeout_ready : Nat
  timeout_start : Nat
  timeout_act : Nat
  timeout_ponder : Nat
  timeout_match_over : Nat
  time_tournament_over : Nat
  max_invalid_behaviors : Nat
  disqualification_rate : ℚ
deriving DecidableEq, Repr

/-- Source `Referee::corrupted_match_due` (referee.cc:470-473):
`errors_[pl].total_errors() > settings_.max_invalid_behaviors
 || errors_[pl].protocol_error > 0`. -/
def corrupted_match_due (errors : List BotErrors) (settings : TournamentSettings)
    (pl : Nat) : Bool :=
  decide (settings.max_invalid_behaviors < (errors.getD pl default).total_errors)
    || decide (0 < (errors.getD pl default).protocol_error)

/-! ## The act-phase response parsing (referee.cc:324-368)

`strtol(response.c_str(), &end, 10)` is modelled on the character list of the
response: leading C whitespace is skipped, one optional sign is accepted, a
run of decimal digits is consumed.  When no digit is consumed, C's `strtol`
sets `end` back to the start of the string; the model returns the original
list in that case.  The referee then checks `*end != '\0'`, i.e. whether the
returned remainder is empty. -/

/-- The characters `isspace` accepts in the C locale. -/
def isSpaceChar (c : Char) : Bool :=
  c = ' ' || c = '\t' || c = '\n' || c = '\x0b' || c = '\x0c' || c = '\r'

/-- Skip leading C whitespace. -/
def dropSpaces : List Char → List Char
  | [] => []
  | c :: r => if isSpaceChar c then dropSpaces r else c :: r

/-- Consume a run of decimal digits, accumulating their value. -/
def takeDigits : List Char → Nat → Nat × List Char
  | [], acc => (acc, [])
  | c :: r, acc =>
      if c.isDigit then takeDigits r (acc * 10 + (c.toNat - '0'.toNat))
      else (acc, c :: r)

/-- Saturation of C `strtol` on overflow of a 64-bit `long`: values beyond
`LONG_MAX` / `LONG_MIN` are clamped to them. -/
def clampLong (v : Int) : Int :=
  if v > 2 ^ 63 - 1 then 2 ^ 63 - 1
  else if v < -(2 ^ 63) then -(2 ^ 63)
  else v

/-- Conversion of the `long` result of `strtol` to `int` in
`int action = strtol(response.c_str(), &end, 10)` (referee.cc:344):
modular wrap into 32-bit two's complement. -/
def longToInt (v : Int) : Int := (v + 2 ^ 31) % 2 ^ 32 - 2 ^ 31

/-- Model of `strtol(s, &end, 10)`: returns the parsed `long` value
(clamped to `LONG_MAX` / `LONG_MIN` on overflow) and the remainder of the
string starting at `end`.  If no digits are consumed, `end` is reset to the
start of the input. -/
def strtol10 (s : List Char) : Int × List Char :=
  let t := dropSpaces s
  let signAndRest : Bool × List Char :=
    match t with
    | '-' :: r => (true, r)
    | '+' :: r => (false, r)
    | _ => (false, t)
  match signAndRest.2 with
  | c :: _ =>
      if c.isDigit then
        let vr := takeDigits signAndRest.2 0
        (clampLong (if signAndRest.1 then -(vr.1 : Int) else (vr.1 : Int)), vr.2)
      else (0, s)
  | [] => (0, s)

/-- What the referee observes on a bot's channel when the act phase ends:
whether the read cycle timed out (`BotChannel::is_time_out`), and the
completed line if one was read during the cycle.

Modelled from the spec: `BotChannel::has_read` and `BotChannel::response`
are declared in referee.h, which is not part of the sources; per spec §4.2,
`has_read()` is true iff a full line was received during the current cycle
and `response()` is that line.  `response = some s` models `has_read()`
returning true with `response() = s`; `response = none` models `has_read()`
returning false. -/
structure ChannelObs where
  time_out : Bool
  response : Option String
deriving DecidableEq, Repr

/-- The per-acting-player response classification of `Referee::PlayMatch`
(referee.cc:326-361): returns the updated error counters and the candidate
action (`some a` when `bot_actions[pl]` was set, `none` when it stays
`kInvalidAction` and a random legal action will be substituted).  Per
referee.cc:344, `int action = strtol(...)` truncates the parsed `long` to
`int`; the legality test and the stored candidate both use that truncated
value. -/
def parseResponse (obs : ChannelObs) (legal : List Int) (errs : BotErrors)
    (max_invalid : Nat) : BotErrors × Option Int :=
  if obs.time_out then
    ({ errs with time_over := errs.time_over + 1 }, none)
  else
    match obs.response with
    | none => ({ errs with protocol_error := errs.protocol_error + 1 }, none)
    | some response =>
        if (strtol10 response.toList).2 ≠ [] then
          ({ errs with protocol_error := errs.protocol_error + 1 }, none)
        else if longToInt (strtol10 response.toList).1 ∉ legal then
          ({ errs with illegal_actions := errs.illegal_actions + 1 }, none)
        else if max_invalid < errs.total_errors then
          (errs, none)
        else
          (errs, some (longToInt (strtol10 response.toList).1))

/-- The action finally stored in `bot_actions[pl]` (referee.cc:326-367):
the candidate from `parseResponse` if any, otherwise the random legal
substitution `legal_actions[random_idx]`; the random draw is modelled by the
index `ridx` reduced into range. -/
def botAction (obs : ChannelObs) (legal : List Int) (errs : BotErrors)
    (max_invalid : Nat) (ridx : Nat) : BotErrors × Int :=
  let ec := parseResponse obs legal errs max_invalid
  match ec.2 with
  | some a => (ec.1, a)
  | none => (ec.1, legal.getD (ridx % legal.length) 0)

/-! ## The asynchronous line reader (referee.cc:44-65 and 68-93) -/

/-- The loop body of `getline_async` (referee.cc:49-62), acting on the
characters currently available on the pipe (`read` returns 0 once `avail`
is exhausted).  Returns `(line_read, line_out, buf, leftover)`:
characters after a newline stay on the pipe. -/
def getlineGo : List Char → List Char → Bool × String × List Char × List Char
  | [], buf => (false, "", buf, [])
  | c :: rest, buf =>
      if c = '\n' then (true, String.mk buf, [], rest)
      else getlineGo rest (buf ++ [c])

/-- Source `getline_async(read_fd, line_out, buf)` (referee.cc:44-65): `line_out`
is cleared on entry, so the returned line is `""` unless a newline is
reached among the available characters. -/
def getline_async (avail buf : List Char) : Bool × String × List Char × List Char :=
  getlineGo avail buf

/-- The channel read state at the end of one read cycle: the `response_`
slot, the incomplete-line buffer `buf_`, and whether the cycle completed a
line. -/
structure CycleResult where
  response : String
  buf : List Char
  line_read : Bool
deriving DecidableEq, Repr

/-- The inner read cycle of `ReadLineFromChannelStdout` (referee.cc:79-89):
each poll calls `getline_async(c->out(), c->response_, c->buf_)` on the
characters available at that moment; the loop ends when a line is read, or
— after whatever polls happened — when the deadline elapses or the read is
cancelled (modelled by the `polls` list running out).  `response0` is the
value left in `response_` by the previous cycle. -/
def readCycle (response0 : String) (buf0 : List Char) :
    List (List Char) → CycleResult
  | [] => ⟨response0, buf0, false⟩
  | avail :: polls =>
      let g := getline_async avail buf0
      if g.1 then ⟨g.2.1, g.2.2.1, true⟩
      else readCycle g.2.1 g.2.2.1 polls

/-! ## StartPlayer channel and reader-thread wiring (referee.cc:171-194) -/

/-- A bot communication channel; only the identity of the bot whose
subprocess it wraps matters for the wiring property
(`BotChannel::bot_index_`). -/
structure BotChannel where
  bot_index : Nat
deriving DecidableEq, Repr

/-- Source `MakeBotChannel(pl, executable)` (referee.cc:37-42). -/
def MakeBotChannel (pl : Nat) : BotChannel := ⟨pl⟩

/-- The referee's channel and reader-thread state: `channels_`, and for each
player slot the `bot_index` of the channel its stdout / stderr reader thread
was started on. -/
structure RefereeChannels where
  channels : List BotChannel
  reader_stdout : List Nat
  reader_stderr : List Nat
deriving DecidableEq, Repr

/-- Source `Referee::StartPlayer(pl)` (referee.cc:171-194), channel wiring only:
`channels_[pl] = MakeBotChannel(pl, executable)`, then both reader threads
are started on `channels_.back().get()`. -/
def StartPlayer (st : RefereeChannels) (pl : Nat) : RefereeChannels :=
  let channels := st.channels.set pl (MakeBotChannel pl)
  let back := ((channels.getLast?).map BotChannel.bot_index).getD 0
  { channels := channels,
    reader_stdout := st.reader_stdout.set pl back,
    reader_stderr := st.reader_stderr.set pl back }

/-! ## The tournament loop (referee.cc:510-583)

`PlayMatch` performs the actual I/O with the bots; the tournament loop
consumes only (a) the terminal state's returns and full-history length,
(b) the per-bot error counters accumulated during the match, and (c) for a
bot that is restarted afterwards, whether the restart's `ready` handshake
check succeeds / times out.  A `MatchOutcome` packages those per-match
inputs; a schedule of them drives the loop. -/

/-- The data one `PlayMatch` call (plus any subsequent restart handshake)
feeds into the tournament loop. -/
structure MatchOutcome where
  errors : List BotErrors
  returns : List ℚ
  historyLen : Nat
  restartReady : List Bool
  restartTimeOut : List Bool
deriving DecidableEq, Repr

/-- Source `MatchResult` (referee.h): the recorded outcome of one match.  The
terminal state is represented by the data of it the results consume:
per-player returns and the history length. -/
structure MatchResult where
  errors : List BotErrors
  returns : List ℚ
  historyLen : Nat
deriving DecidableEq, Repr, Inhabited

/-- Source `TournamentResults` (referee.h / referee.cc:596-602). -/
structure TournamentResults where
  num_bots : Nat
  returns_mean : List ℚ
  returns_agg : List ℚ
  history_len_mean : ℚ
  corrupted_matches : List Nat
  disqualified : List Bool
  restarts : List Nat
  -- source field `matches` (renamed: `matches` is a Lean keyword)
  matchesList : List MatchResult
deriving DecidableEq, Repr

/-- Source `TournamentResults::TournamentResults(num_bots)` (referee.cc:596-602). -/
def TournamentResults.init (n : Nat) : TournamentResults :=
  ⟨n, List.replicate n 0, List.replicate n 0, 0, List.replicate n 0,
   List.replicate n false, List.replicate n 0, []⟩

/-- The C++ double→int conversion (truncation toward zero), used for
`const int corruption_threshold = num_matches * settings().disqualification_rate`
(referee.cc:524-525). -/
def doubleToInt (q : ℚ) : Int := if 0 ≤ q then ⌊q⌋ else ⌈q⌉

/-- The Welford update the loop applies once per match per bot
(referee.cc:542-547):
`delta = x - mean; mean += delta/(match+1); delta2 = x - mean; agg += delta*delta2`. -/
def welfordUpdate (matchIdx : Nat) (x mean agg : ℚ) : ℚ × ℚ :=
  let delta := x - mean
  let mean' := mean + delta / ((matchIdx : ℚ) + 1)
  let delta2 := x - mean'
  (mean', agg + delta * delta2)

/-- Iterate `welfordUpdate` over successive per-match returns, starting at
match index `k` with running state `(mean, agg)`. -/
def welfordFoldFrom : List ℚ → Nat → ℚ → ℚ → ℚ × ℚ
  | [], _, mean, agg => (mean, agg)
  | x :: xs, k, mean, agg =>
      welfordFoldFrom xs (k + 1) (welfordUpdate k x mean agg).1
        (welfordUpdate k x mean agg).2

/-- The `(returns_mean[pl], returns_agg[pl])` pair after the loop has
processed the per-match returns `xs` of one bot, one Welford update per
match (referee.cc:539-547). -/
def welfordFold (xs : List ℚ) : ℚ × ℚ := welfordFoldFrom xs 0 0 0

/-- Sum of squares of a list of rationals (used to state the Welford law). -/
def sumSq (l : List ℚ) : ℚ := (l.map (fun x => x ^ 2)).sum

/-- The error counters of a restarted bot after `RestartPlayer(pl)`
(referee.cc:475-478): `ShutDownPlayer` resets `errors_[pl]`
(referee.cc:217), then `StartPlayer`'s `CheckResponse("ready", pl)`
(referee.cc:435-454) increments `protocol_error` on a failed handshake and
additionally `time_over` if the channel timed out. -/
def restartErrors (readyOk timedOut : Bool) : BotErrors :=
  if readyOk then ⟨0, 0, 0, 0⟩
  else ⟨1, 0, 0, if timedOut then 1 else 0⟩

/-- Outcome of the per-match disqualification loop (referee.cc:549-565):
either some bot got disqualified (the loop returns from `PlayTournament`
immediately), or the loop ran through all bots.  Carries the mutated
`corrupted_matches`, `errors_` and `restarts` state. -/
inductive DisqOutcome where
  | disq (pl : Nat) (corrupted : List Nat) (restarts : List Nat)
  | proceed (corrupted : List Nat) (errors : List BotErrors) (restarts : List Nat)
deriving DecidableEq, Repr

/-- The disqualification loop body (referee.cc:549-565), iterating over the
listed player indices in order: a bot with `corrupted_match_due`
increments its `corrupted_matches`; if that exceeds the threshold the loop
stops with a disqualification, otherwise the bot is restarted
(incrementing `restarts[pl]` and replacing `errors_[pl]` by the restart's
counters). -/
def disqLoopGo (settings : TournamentSettings) (threshold : Int)
    (restartReady restartTimeOut : List Bool) :
    List Nat → List Nat → List BotErrors → List Nat → DisqOutcome
  | [], corrupted, errors, restarts => .proceed corrupted errors restarts
  | pl :: rest, corrupted, errors, restarts =>
      if corrupted_match_due errors settings pl then
        if threshold < ((corrupted.set pl (corrupted.getD pl 0 + 1)).getD pl 0 : Int) then
          .disq pl (corrupted.set pl (corrupted.getD pl 0 + 1)) restarts
        else
          disqLoopGo settings threshold restartReady restartTimeOut rest
            (corrupted.set pl (corrupted.getD pl 0 + 1))
            (errors.set pl (restartErrors (restartReady.getD pl true)
              (restartTimeOut.getD pl false)))
            (restarts.set pl (restarts.getD pl 0 + 1))
      else
        disqLoopGo settings threshold restartReady restartTimeOut rest
          corrupted errors restarts

/-- The per-bot Welford statistics after one match (referee.cc:542-547):
element `pl` is `(returns_mean[pl], returns_agg[pl])` after the update. -/
def welfordStats (matchIdx : Nat) (out : MatchOutcome) (r : TournamentResults) :
    List (ℚ × ℚ) :=
  (List.range r.num_bots).map (fun pl =>
    welfordUpdate matchIdx (out.returns.getD pl 0)
      (r.returns_mean.getD pl 0) (r.returns_agg.getD pl 0))

/-- Value of `history_len_mean` after one match (referee.cc:540-541). -/
def historyLenUpdate (matchIdx : Nat) (out : MatchOutcome) (r : TournamentResults) : ℚ :=
  r.history_len_mean
    + ((out.historyLen : ℚ) - r.history_len_mean) / ((matchIdx : ℚ) + 1)

/-- One iteration of the tournament's match loop (referee.cc:527-571):
statistics update (referee.cc:539-547), the disqualification loop
(referee.cc:549-565), and — only when nobody was disqualified — the
`matches.push_back(MatchResult{...})` (referee.cc:567-570).  The returned
flag says whether the loop returned early (disqualification). -/
def matchStep (settings : TournamentSettings) (threshold : Int) (matchIdx : Nat)
    (out : MatchOutcome) (r : TournamentResults) : TournamentResults × Bool :=
  match disqLoopGo settings threshold out.restartReady out.restartTimeOut
      (List.range r.num_bots) r.corrupted_matches out.errors r.restarts with
  | .disq pl corrupted restarts =>
      ({ r with
          returns_mean := (welfordStats matchIdx out r).map Prod.fst,
          returns_agg := (welfordStats matchIdx out r).map Prod.snd,
          history_len_mean := historyLenUpdate matchIdx out r,
          corrupted_matches := corrupted,
          restarts := restarts,
          disqualified := r.disqualified.set pl true }, true)
  | .proceed corrupted errors restarts =>
      ({ r with
          returns_mean := (welfordStats matchIdx out r).map Prod.fst,
          returns_agg := (welfordStats matchIdx out r).map Prod.snd,
          history_len_mean := historyLenUpdate matchIdx out r,
          corrupted_matches := corrupted,
          restarts := restarts,
          matchesList := r.matchesList ++ [⟨errors, out.returns, out.historyLen⟩] }, false)

/-- The match loop of `PlayTournament` (referee.cc:527-571), driven by the
schedule of match outcomes. -/
def playTournamentGo (settings : TournamentSettings) (threshold : Int) :
    List MatchOutcome → Nat → TournamentResults → TournamentResults
  | [], _, r => r
  | out :: rest, matchIdx, r =>
      if (matchStep settings threshold matchIdx out r).2 then
        (matchStep settings threshold matchIdx out r).1
      else
        playTournamentGo settings threshold rest (matchIdx + 1)
          (matchStep settings threshold matchIdx out r).1

/-- Value of `corrupted_matches` after the start-up check (referee.cc:514-517):
every bot whose `ready` handshake failed has all `num_matches` prospective
matches marked corrupted. -/
def startCorrupted (num_matches num_bots : Nat) (start_ok : List Bool) : List Nat :=
  (List.range num_bots).map (fun pl => if start_ok.getD pl true then 0 else num_matches)

/-- Source `Referee::PlayTournament(num_matches)` (referee.cc:510-583).
`start_ok` is the vector `StartPlayers()` returns; `schedule` supplies the
per-match data (one entry per prospective match). -/
def PlayTournament (settings : TournamentSettings) (num_bots num_matches : Nat)
    (start_ok : List Bool) (schedule : List MatchOutcome) : TournamentResults :=
  if (List.range num_bots).all (fun pl => start_ok.getD pl true) then
    playTournamentGo settings
      (doubleToInt ((num_matches : ℚ) * settings.disqualification_rate))
      (schedule.take num_matches) 0 (TournamentResults.init num_bots)
  else
    { TournamentResults.init num_bots with
        corrupted_matches := startCorrupted num_matches num_bots start_ok }

/-! ## Concrete scenarios used to evaluate the model -/

/-- Settings of the three-match disqualification scenario (spec §8,
scenario 4): `disqualification_rate = 0.5`; any error corrupts a match
(`max_invalid_behaviors = 0`). -/
def disqScenarioSettings : TournamentSettings :=
  ⟨200, 100, 100, 50, 100, 100, 0, 1 / 2⟩

/-- A two-bot match in which Bot#0 commits one protocol error. -/
def disqScenarioBadMatch : MatchOutcome :=
  ⟨[⟨1, 0, 0, 0⟩, ⟨0, 0, 0, 0⟩], [0, 0], 4, [true, true], [false, false]⟩

/-- A clean two-bot match. -/
def disqScenarioCleanMatch : MatchOutcome :=
  ⟨[⟨0, 0, 0, 0⟩, ⟨0, 0, 0, 0⟩], [0, 0], 4, [true, true], [false, false]⟩

/-- Settings of the restart scenario: a bot may misbehave up to twice per
match; `disqualification_rate = 1` (no disqualification in two matches). -/
def restartScenarioSettings : TournamentSettings :=
  ⟨200, 100, 100, 50, 100, 100, 2, 1⟩

/-- A single-bot match in which the bot plays three illegal actions (no
protocol error), crossing `max_invalid_behaviors = 2`. -/
def restartScenarioBadMatch : MatchOutcome :=
  ⟨[⟨0, 3, 0, 0⟩], [1], 5, [true], [false]⟩

/-- A clean single-bot match. -/
def restartScenarioCleanMatch : MatchOutcome :=
  ⟨[⟨0, 0, 0, 0⟩], [1], 5, [true], [false]⟩

/-! ## Helper lemmas on list indexing -/

theorem getD_set_self {α : Type _} (l : List α) (i : Nat) (a d : α)
    (h : i < l.length) : (l.set i a).getD i d = a := by
  simp [List.getD_eq_getElem?_getD, List.getElem?_set_self', List.getElem?_eq_getElem, h]

theorem getD_set_ne {α : Type _} (l : List α) (i j : Nat) (a d : α)
    (h : i ≠ j) : (l.set i a).getD j d = l.getD j d := by
  simp [List.getD_eq_getElem?_getD, List.getElem?_set_ne h]

theorem getD_map_range {α : Type _} (n i : Nat) (f : Nat → α) (d : α)
    (h : i < n) : ((List.range n).map f).getD i d = f i := by
  simp [List.getD_eq_getElem?_getD, List.getElem?_map, List.getElem?_range, h]

/-! ## Act-phase theorems -/

theorem parseResponse_some_mem (obs : ChannelObs) (legal : List Int)
    (errs : BotErrors) (mx : Nat) (a : Int)
    (h : (parseResponse obs legal errs mx).2 = some a) : a ∈ legal := by
  unfold parseResponse at h
  repeat' split at h
  all_goals simp_all

/-- C4: at every acting turn the action the referee stores into
`bot_actions[pl]` — and hence applies to the game state for that bot — is a
member of that turn's legal-actions set, whether it is the bot's parsed
response or the random substitution. -/
theorem applied_action_legal (obs : ChannelObs) (legal : List Int)
    (errs : BotErrors) (mx ridx : Nat) (h : legal ≠ []) :
    (botAction obs legal errs mx ridx).2 ∈ legal := by
  rcases hc : (parseResponse obs legal errs mx).2 with _ | a
  · have hb : (botAction obs legal errs mx ridx).2
        = legal.getD (ridx % legal.length) 0 := by
      simp [botAction, hc]
    have hlen : 0 < legal.length := List.length_pos.mpr h
    have hidx : ridx % legal.length < legal.length := Nat.mod_lt _ hlen
    rw [hb, List.getD_eq_getElem legal 0 hidx]
    exact List.getElem_mem hidx
  · have hb : (botAction obs legal errs mx ridx).2 = a := by
      simp [botAction, hc]
    rw [hb]
    exact parseResponse_some_mem obs legal errs mx a hc

/-- C4 witness: a concrete acting turn (legal response `"5"` among legal
actions `[2, 5]`). -/
theorem applied_action_legal_witness :
    (botAction ⟨false, some "5"⟩ [2, 5] ⟨0, 0, 0, 0⟩ 10 0).2 ∈ [2, 5] :=
  applied_action_legal ⟨false, some "5"⟩ [2, 5] ⟨0, 0, 0, 0⟩ 10 0 (by decide)

/-- C6: `corrupted_match_due(pl)` holds exactly when the bot's four error
counters sum to more than `max_invalid_behaviors` or its `protocol_error`
counter is positive; in particular one protocol error corrupts the match
regardless of `max_invalid_behaviors`. -/
theorem corrupted_match_due_iff (settings : TournamentSettings)
    (errors : List BotErrors) (pl : Nat) :
    (corrupted_match_due errors settings pl = true ↔
      (settings.max_invalid_behaviors <
          (errors.getD pl default).protocol_error
            + (errors.getD pl default).illegal_actions
            + (errors.getD pl default).ponder_error
            + (errors.getD pl default).time_over
        ∨ 0 < (errors.getD pl default).protocol_error)) ∧
    (0 < (errors.getD pl default).protocol_error →
      corrupted_match_due errors settings pl = true) := by
  constructor
  · simp [corrupted_match_due, BotErrors.total_errors]
  · intro h
    simp only [corrupted_match_due, Bool.or_eq_true, decide_eq_true_eq]
    exact Or.inr h

/-- C6 witness: a single protocol error corrupts the match even with a
large `max_invalid_behaviors`. -/
theorem corrupted_match_due_iff_witness :
    corrupted_match_due [⟨1, 0, 0, 0⟩] ⟨200, 100, 100, 50, 100, 100, 99, 1⟩ 0 = true :=
  (corrupted_match_due_iff ⟨200, 100, 100, 50, 100, 100, 99, 1⟩
    [⟨1, 0, 0, 0⟩] 0).2 (by decide)

/-! ## Reader-cycle theorems -/

theorem getlineGo_line_of_not_read (avail : List Char) :
    ∀ buf : List Char, (getlineGo avail buf).1 = false →
      (getlineGo avail buf).2.1 = "" := by
  induction avail with
  | nil => intro buf _; rfl
  | cons c rest ih =>
      intro buf h
      by_cases hc : c = '\n'
      · simp [getlineGo, hc] at h
      · simp only [getlineGo, if_neg hc] at h ⊢
        exact ih _ h

theorem readCycle_empty_response (polls : List (List Char)) :
    ∀ buf : List Char, (readCycle "" buf polls).line_read = false →
      (readCycle "" buf polls).response = "" := by
  induction polls with
  | nil => intro buf _; rfl
  | cons a ps ih =>
      intro buf h
      by_cases hg : (getline_async a buf).1 = true
      · simp [readCycle, hg] at h
      · have hg' : (getline_async a buf).1 = false := by
          simpa using hg
        have hline : (getline_async a buf).2.1 = "" :=
          getlineGo_line_of_not_read a buf hg'
        simp only [readCycle, hg', if_false, Bool.false_eq_true] at h ⊢
        rw [hline] at h ⊢
        exact ih _ h

/-- C9: within a single read cycle the first poll of `getline_async` clears
the `response_` slot: the cycle's final read state does not depend on the
response left over from an earlier cycle, and if no complete
newline-terminated line was read during the cycle, `response_` is the empty
string — so a line received in an earlier cycle is never reported by a
later cycle's check. -/
theorem read_cycle_clears_response (r0 r0' : String) (buf : List Char)
    (polls : List (List Char)) (h : polls ≠ []) :
    readCycle r0 buf polls = readCycle r0' buf polls ∧
    ((readCycle r0 buf polls).line_read = false →
      (readCycle r0 buf polls).response = "") := by
  obtain ⟨a, ps, rfl⟩ : ∃ a ps, polls = a :: ps := by
    cases polls with
    | nil => exact absurd rfl h
    | cons a ps => exact ⟨a, ps, rfl⟩
  have hswap : ∀ s : String, readCycle s buf (a :: ps) = readCycle "" buf (a :: ps) := by
    intro s; rfl
  refine ⟨(hswap r0).trans (hswap r0').symm, ?_⟩
  rw [hswap r0]
  exact readCycle_empty_response (a :: ps) buf

/-- C9 witness: a cycle whose single poll sees one character and no
newline. -/
theorem read_cycle_clears_response_witness :
    (readCycle "stale" ['x'] [['a']] = readCycle "fresh" ['x'] [['a']]) ∧
    ((readCycle "stale" ['x'] [['a']]).line_read = false →
      (readCycle "stale" ['x'] [['a']]).response = "") :=
  read_cycle_clears_response "stale" "fresh" ['x'] [['a']] (by simp)

/-! ## StartPlayer wiring -/

/-- C2 (code bug): `Referee::StartPlayer(pl)` installs the fresh channel at
slot `pl` but starts both reader threads on `channels_.back().get()`
(referee.cc:178-181).  With two bots, restarting player 0 leaves slot 0's
channel belonging to bot 0 while both of its reader threads read bot 1's
channel, so bot 0's `ready` response is never observed. -/
theorem startPlayer_reader_wiring :
    (StartPlayer ⟨[⟨0⟩, ⟨1⟩], [0, 1], [0, 1]⟩ 0).channels.getD 0 ⟨99⟩ = ⟨0⟩ ∧
    (StartPlayer ⟨[⟨0⟩, ⟨1⟩], [0, 1], [0, 1]⟩ 0).reader_stdout.getD 0 99 = 1 ∧
    (StartPlayer ⟨[⟨0⟩, ⟨1⟩], [0, 1], [0, 1]⟩ 0).reader_stderr.getD 0 99 = 1 := by
  decide

/-! ## Disqualification invariants -/

theorem matchStep_disq_of_snd_false (settings : TournamentSettings)
    (threshold : Int) (k : Nat) (out : MatchOutcome) (r : TournamentResults)
    (h : (matchStep settings threshold k out r).2 = false) :
    ((matchStep settings threshold k out r).1).disqualified = r.disqualified := by
  unfold matchStep at h ⊢
  split at h
  · simp at h
  · rfl

theorem matchStep_disq_of_snd_true (settings : TournamentSettings)
    (threshold : Int) (k : Nat) (out : MatchOutcome) (r : TournamentResults)
    (h : (matchStep settings threshold k out r).2 = true) :
    ∃ pl, ((matchStep settings threshold k out r).1).disqualified
      = r.disqualified.set pl true := by
  unfold matchStep at h ⊢
  split at h
  next pl c rs _ => exact ⟨pl, rfl⟩
  · simp at h

theorem playTournamentGo_disqualified (settings : TournamentSettings)
    (threshold : Int) (schedule : List MatchOutcome) :
    ∀ (k : Nat) (r : TournamentResults),
      (playTournamentGo settings threshold schedule k r).disqualified = r.disqualified ∨
      ∃ pl, (playTournamentGo settings threshold schedule k r).disqualified
        = r.disqualified.set pl true := by
  induction schedule with
  | nil => intro k r; left; rfl
  | cons out rest ih =>
      intro k r
      by_cases hb : (matchStep settings threshold k out r).2 = true
      · right
        obtain ⟨pl, hpl⟩ := matchStep_disq_of_snd_true settings threshold k out r hb
        refine ⟨pl, ?_⟩
        simp only [playTournamentGo, hb, if_true]
        exact hpl
      · have hb' : (matchStep settings threshold k out r).2 = false := by
          simpa using hb
        have hkeep := matchStep_disq_of_snd_false settings threshold k out r hb'
        simp only [playTournamentGo, hb', Bool.false_eq_true, if_false]
        rcases ih (k + 1) ((matchStep settings threshold k out r).1) with h1 | ⟨pl, hpl⟩
        · left; rw [h1, hkeep]
        · right; exact ⟨pl, by rw [hpl, hkeep]⟩

/-- C10: in any run of `PlayTournament` at most one bot is ever marked
disqualified: the check returns from the tournament on the first bot (in
increasing index order) whose corrupted-match count exceeds the threshold,
so the `disqualified` vector is either all-false or all-false with exactly
one slot set. -/
theorem at_most_one_disqualified (settings : TournamentSettings)
    (num_bots num_matches : Nat) (start_ok : List Bool)
    (schedule : List MatchOutcome) :
    (PlayTournament settings num_bots num_matches start_ok schedule).disqualified
        = List.replicate num_bots false ∨
      ∃ pl, (PlayTournament settings num_bots num_matches start_ok schedule).disqualified
        = (List.replicate num_bots false).set pl true := by
  unfold PlayTournament
  by_cases hok : ((List.range num_bots).all (fun pl => start_ok.getD pl true)) = true
  · simp only [hok, if_true]
    exact playTournamentGo_disqualified settings _ (schedule.take num_matches) 0
      (TournamentResults.init num_bots)
  · simp only [hok, Bool.false_eq_true, if_false]
    left; rfl

/-! ## The Welford law -/

theorem sumSq_nil : sumSq [] = 0 := by
  simp [sumSq]

theorem sumSq_append (l1 l2 : List ℚ) : sumSq (l1 ++ l2) = sumSq l1 + sumSq l2 := by
  simp [sumSq]

theorem sumSq_singleton (x : ℚ) : sumSq [x] = x ^ 2 := by
  simp [sumSq]

theorem welfordUpdate_closed (p : List ℚ) (x : ℚ) :
    welfordUpdate p.length x (p.sum / (p.length : ℚ))
        (sumSq p - p.sum ^ 2 / (p.length : ℚ))
      = ((p.sum + x) / ((p.length : ℚ) + 1),
         sumSq p + x ^ 2 - (p.sum + x) ^ 2 / ((p.length : ℚ) + 1)) := by
  rcases p with _ | ⟨a, t⟩
  · simp only [welfordUpdate, List.length_nil, List.sum_nil, sumSq, List.map_nil,
      Nat.cast_zero, Prod.mk.injEq]
    norm_num
  · have hk : ((a :: t).length : ℚ) ≠ 0 := by
      simp only [List.length_cons]
      exact_mod_cast Nat.succ_ne_zero t.length
    have hk1 : ((a :: t).length : ℚ) + 1 ≠ 0 := by
      have : (0 : ℚ) ≤ ((a :: t).length : ℚ) := by positivity
      nlinarith
    simp only [welfordUpdate, Prod.mk.injEq]
    constructor
    · field_simp
      ring
    · field_simp
      ring

theorem welfordFoldFrom_eq (xs : List ℚ) :
    ∀ p : List ℚ,
      welfordFoldFrom xs p.length (p.sum / (p.length : ℚ))
          (sumSq p - p.sum ^ 2 / (p.length : ℚ))
        = ((p ++ xs).sum / (((p ++ xs).length : ℚ)),
           sumSq (p ++ xs) - (p ++ xs).sum ^ 2 / (((p ++ xs).length : ℚ))) := by
  induction xs with
  | nil => intro p; simp [welfordFoldFrom]
  | cons x xs ih =>
      intro p
      rw [welfordFoldFrom, welfordUpdate_closed]
      have key := ih (p ++ [x])
      simp only [List.length_append, List.sum_append, sumSq_append, sumSq_singleton,
        List.length_singleton, List.sum_singleton, List.append_assoc,
        List.singleton_append, Nat.cast_add, Nat.cast_one] at key
      simp only [List.sum_append, List.length_append, sumSq_append, Nat.cast_add]
      exact key

theorem sum_sq_dev (μ : ℚ) (l : List ℚ) :
    (l.map (fun x => (x - μ) ^ 2)).sum
      = sumSq l - 2 * μ * l.sum + (l.length : ℚ) * μ ^ 2 := by
  induction l with
  | nil => simp [sumSq]
  | cons a t ih =>
      simp only [List.map_cons, List.sum_cons, List.sum_cons, sumSq, List.length_cons,
        Nat.cast_add, Nat.cast_one] at ih ⊢
      rw [ih]
      ring

/-- C8: after `K ≥ 1` completed matches the incremental Welford update,
applied once per match per bot (referee.cc:539-547), leaves
`returns_mean[pl]` equal to the arithmetic mean of the per-match returns
and `returns_agg[pl] / K` equal to their population variance (exact
arithmetic). -/
theorem welford_law (xs : List ℚ) (h : xs ≠ []) :
    (welfordFold xs).1 = xs.sum / (xs.length : ℚ) ∧
    (welfordFold xs).2 / (xs.length : ℚ)
      = (xs.map (fun x => (x - xs.sum / (xs.length : ℚ)) ^ 2)).sum
          / (xs.length : ℚ) := by
  have h0 := welfordFoldFrom_eq xs []
  simp only [List.length_nil, List.sum_nil, Nat.cast_zero, sumSq_nil, div_zero,
    zero_div, zero_sub, neg_zero, List.nil_append] at h0
  have h1 : (welfordFold xs).1 = xs.sum / (xs.length : ℚ) := by
    rw [welfordFold, h0]
  have h2 : (welfordFold xs).2 = sumSq xs - xs.sum ^ 2 / (xs.length : ℚ) := by
    rw [welfordFold, h0]
  have hlen : ((xs.length : ℚ)) ≠ 0 := by
    have hne : xs.length ≠ 0 := by
      simpa using (List.length_pos.mpr h).ne'
    exact_mod_cast hne
  refine ⟨h1, ?_⟩
  rw [h2, sum_sq_dev]
  field_simp
  ring

/-- C8 witness: two matches with returns 1 and 3. -/
theorem welford_law_witness :
    (welfordFold [(1 : ℚ), 3]).1 = ([(1 : ℚ), 3].sum) / (([(1 : ℚ), 3].length : ℚ)) ∧
    (welfordFold [(1 : ℚ), 3]).2 / (([(1 : ℚ), 3].length : ℚ))
      = ([(1 : ℚ), 3].map
            (fun x => (x - ([(1 : ℚ), 3].sum) / (([(1 : ℚ), 3].length : ℚ))) ^ 2)).sum
          / (([(1 : ℚ), 3].length : ℚ)) :=
  welford_law [1, 3] (by simp)

/-! ## What the recorded MatchResult contains -/

theorem corrupted_match_due_congr (e1 e2 : List BotErrors)
    (settings : TournamentSettings) (pl : Nat)
    (h : e1.getD pl default = e2.getD pl default) :
    corrupted_match_due e1 settings pl = corrupted_match_due e2 settings pl := by
  unfold corrupted_match_due
  rw [h]

theorem disqLoopGo_getD_of_notMem (settings : TournamentSettings) (threshold : Int)
    (rR rTO : List Bool) (players : List Nat) :
    ∀ (corrupted : List Nat) (errors : List BotErrors) (restarts : List Nat)
      (c' : List Nat) (e' : List BotErrors) (r' : List Nat) (pl : Nat),
      disqLoopGo settings threshold rR rTO players corrupted errors restarts
        = .proceed c' e' r' →
      pl ∉ players →
      e'.getD pl default = errors.getD pl default := by
  induction players with
  | nil =>
      intro c e rs c' e' r' pl h _
      simp only [disqLoopGo, DisqOutcome.proceed.injEq] at h
      rw [← h.2.1]
  | cons q rest ih =>
      intro c e rs c' e' r' pl h hmem
      have hq : pl ≠ q := fun hx => hmem (hx ▸ List.mem_cons_self q rest)
      have hrest : pl ∉ rest := fun hx => hmem (List.mem_cons_of_mem q hx)
      simp only [disqLoopGo] at h
      by_cases hdue : corrupted_match_due e settings q
      · rw [if_pos hdue] at h
        by_cases hth : threshold < (((c.set q (c.getD q 0 + 1)).getD q 0 : Nat) : Int)
        · rw [if_pos hth] at h
          exact absurd h (by simp)
        · rw [if_neg hth] at h
          rw [ih _ _ _ _ _ _ _ h hrest]
          exact getD_set_ne _ _ _ _ _ (Ne.symm hq)
      · rw [if_neg hdue] at h
        exact ih _ _ _ _ _ _ _ h hrest

theorem disqLoopGo_getD_of_mem (settings : TournamentSettings) (threshold : Int)
    (rR rTO : List Bool) (players : List Nat) :
    ∀ (corrupted : List Nat) (errors : List BotErrors) (restarts : List Nat)
      (c' : List Nat) (e' : List BotErrors) (r' : List Nat) (pl : Nat),
      players.Nodup →
      disqLoopGo settings threshold rR rTO players corrupted errors restarts
        = .proceed c' e' r' →
      pl ∈ players → pl < errors.length →
      e'.getD pl default =
        (if corrupted_match_due errors settings pl
         then restartErrors (rR.getD pl true) (rTO.getD pl false)
         else errors.getD pl default) := by
  induction players with
  | nil =>
      intro c e rs c' e' r' pl _ _ hmem _
      exact absurd hmem (List.not_mem_nil pl)
  | cons q rest ih =>
      intro c e rs c' e' r' pl hnd h hmem hlen
      obtain ⟨hqrest, hndrest⟩ := List.nodup_cons.mp hnd
      simp only [disqLoopGo] at h
      rcases List.mem_cons.mp hmem with rfl | hplrest
      · by_cases hdue : corrupted_match_due e settings pl
        · rw [if_pos hdue] at h
          by_cases hth :
              threshold < (((c.set pl (c.getD pl 0 + 1)).getD pl 0 : Nat) : Int)
          · rw [if_pos hth] at h
            exact absurd h (by simp)
          · rw [if_neg hth] at h
            rw [disqLoopGo_getD_of_notMem settings threshold rR rTO
              rest _ _ _ _ _ _ pl h hqrest, if_pos hdue]
            exact getD_set_self e pl _ default hlen
        · rw [if_neg hdue] at h
          rw [disqLoopGo_getD_of_notMem settings threshold rR rTO
            rest _ _ _ _ _ _ pl h hqrest, if_neg hdue]
      · have hq : q ≠ pl := fun hx => hqrest (hx ▸ hplrest)
        by_cases hdue : corrupted_match_due e settings q
        · rw [if_pos hdue] at h
          by_cases hth :
              threshold < (((c.set q (c.getD q 0 + 1)).getD q 0 : Nat) : Int)
          · rw [if_pos hth] at h
            exact absurd h (by simp)
          · rw [if_neg hth] at h
            have heq : (e.set q (restartErrors (rR.getD q true)
                  (rTO.getD q false))).getD pl default = e.getD pl default :=
              getD_set_ne _ _ _ _ _ hq
            have hlen2 : pl < (e.set q (restartErrors (rR.getD q true)
                (rTO.getD q false))).length := by simpa using hlen
            rw [ih _ _ _ _ _ _ pl hndrest h hplrest hlen2,
              corrupted_match_due_congr _ e settings pl heq, heq]
        · rw [if_neg hdue] at h
          exact ih _ _ _ _ _ _ pl hndrest h hplrest hlen

/-- C3 (amended): every `MatchResult` appended to the tournament results
contains, for every bot that was not restarted after the match, the error
counters that bot accumulated during the match; a bot that crossed the
corruption criterion (and was restarted rather than disqualified) has its
counters reset by `ShutDownPlayer` before the result is appended, so its
slot records only the errors of the restart's `ready` handshake — all
zeros when the handshake succeeds. -/
theorem recorded_errors (settings : TournamentSettings) (threshold : Int)
    (k : Nat) (out : MatchOutcome) (r r' : TournamentResults) (pl : Nat)
    (hpl : pl < r.num_bots) (hlen : pl < out.errors.length)
    (h : matchStep settings threshold k out r = (r', false)) :
    ∃ mr, r'.matchesList = r.matchesList ++ [mr] ∧
      mr.errors.getD pl default =
        (if corrupted_match_due out.errors settings pl
         then restartErrors (out.restartReady.getD pl true)
            (out.restartTimeOut.getD pl false)
         else out.errors.getD pl default) := by
  unfold matchStep at h
  split at h
  · simp at h
  next c e rs hd =>
    simp only [Prod.mk.injEq] at h
    obtain ⟨h1, -⟩ := h
    subst h1
    refine ⟨⟨e, out.returns, out.historyLen⟩, rfl, ?_⟩
    exact disqLoopGo_getD_of_mem settings threshold out.restartReady
      out.restartTimeOut (List.range r.num_bots) _ _ _ _ _ _ pl
      (List.nodup_range r.num_bots) hd (List.mem_range.mpr hpl) hlen

/-- C3 witness: a concrete match in which the only bot crosses
`max_invalid_behaviors` with illegal actions and is restarted. -/
theorem recorded_errors_witness :
    ∃ mr, ((matchStep restartScenarioSettings 2 0 restartScenarioBadMatch
          (TournamentResults.init 1)).1).matchesList
        = (TournamentResults.init 1).matchesList ++ [mr] ∧
      mr.errors.getD 0 default =
        (if corrupted_match_due restartScenarioBadMatch.errors
            restartScenarioSettings 0
         then restartErrors (restartScenarioBadMatch.restartReady.getD 0 true)
            (restartScenarioBadMatch.restartTimeOut.getD 0 false)
         else restartScenarioBadMatch.errors.getD 0 default) :=
  recorded_errors restartScenarioSettings 2 0 restartScenarioBadMatch
    (TournamentResults.init 1) _ 0 (by decide) (by decide)
    (by
      have h2 : (matchStep restartScenarioSettings 2 0 restartScenarioBadMatch
          (TournamentResults.init 1)).2 = false := by decide
      rw [← h2])

/-- C3 counterexample: in a two-match tournament where the bot commits
three illegal actions in the first match (crossing
`max_invalid_behaviors = 2`, no protocol error) and is restarted, the
recorded result of that match holds all-zero counters for the bot, not the
accumulated ones. -/
theorem recorded_errors_counterexample :
    corrupted_match_due restartScenarioBadMatch.errors restartScenarioSettings 0
        = true ∧
    (PlayTournament restartScenarioSettings 1 2 [true]
        [restartScenarioBadMatch, restartScenarioCleanMatch]).disqualified = [false] ∧
    (PlayTournament restartScenarioSettings 1 2 [true]
        [restartScenarioBadMatch, restartScenarioCleanMatch]).restarts = [1] ∧
    ((PlayTournament restartScenarioSettings 1 2 [true]
        [restartScenarioBadMatch, restartScenarioCleanMatch]).matchesList.getD 0
          default).errors.getD 0 default = ⟨0, 0, 0, 0⟩ ∧
    restartScenarioBadMatch.errors.getD 0 default ≠ ⟨0, 0, 0, 0⟩ := by
  have hth : doubleToInt (((2 : ℕ) : ℚ)
      * restartScenarioSettings.disqualification_rate) = 2 := by
    have hq : ((2 : ℕ) : ℚ) * restartScenarioSettings.disqualification_rate = 2 := by
      show ((2 : ℕ) : ℚ) * 1 = 2
      push_cast
      ring
    rw [doubleToInt, hq]
    norm_num
  have hPT : PlayTournament restartScenarioSettings 1 2 [true]
        [restartScenarioBadMatch, restartScenarioCleanMatch]
      = playTournamentGo restartScenarioSettings 2
        ([restartScenarioBadMatch, restartScenarioCleanMatch].take 2) 0
        (TournamentResults.init 1) := by
    rw [PlayTournament, if_pos (by decide), hth]
  rw [hPT]
  decide

/-! ## Tournament-level scenarios -/

theorem disqScenario_threshold :
    doubleToInt (((3 : ℕ) : ℚ) * disqScenarioSettings.disqualification_rate) = 1 := by
  have hq : ((3 : ℕ) : ℚ) * disqScenarioSettings.disqualification_rate = 3 / 2 := by
    show ((3 : ℕ) : ℚ) * (1 / 2) = 3 / 2
    push_cast
    ring
  rw [doubleToInt, hq]
  norm_num

theorem disqScenario_playTournament :
    PlayTournament disqScenarioSettings 2 3 [true, true]
        [disqScenarioBadMatch, disqScenarioBadMatch, disqScenarioCleanMatch]
      = playTournamentGo disqScenarioSettings 1
        ([disqScenarioBadMatch, disqScenarioBadMatch, disqScenarioCleanMatch].take 3) 0
        (TournamentResults.init 2) := by
  rw [PlayTournament, if_pos (by decide), disqScenario_threshold]

/-- C1 counterexample: three-match tournament, `disqualification_rate = 0.5`,
Bot#0 corrupts matches 1 and 2.  After match 2 Bot#0 is disqualified
(`corrupted_matches[0] = 2 > 1`) and the tournament ends without playing
match 3 — but `results.matches` holds only the first match: the
disqualification check returns before the `push_back` of the disqualifying
match, so `matches.size() = 1`, not `2`. -/
theorem disq_scenario_counterexample :
    (PlayTournament disqScenarioSettings 2 3 [true, true]
        [disqScenarioBadMatch, disqScenarioBadMatch, disqScenarioCleanMatch]).disqualified
      = [true, false] ∧
    (PlayTournament disqScenarioSettings 2 3 [true, true]
        [disqScenarioBadMatch, disqScenarioBadMatch, disqScenarioCleanMatch]).corrupted_matches
      = [2, 0] ∧
    (PlayTournament disqScenarioSettings 2 3 [true, true]
        [disqScenarioBadMatch, disqScenarioBadMatch,
          disqScenarioCleanMatch]).matchesList.length ≠ 2 := by
  rw [disqScenario_playTournament]
  decide

/-- C1 (amended): on the first disqualification `PlayTournament` ends
immediately; the matches played before the disqualifying one are recorded
but the disqualifying match itself is not.  In the scenario: after match 2,
`corrupted_matches[0] = 2 > floor(3·0.5) = 1`, `disqualified[0] = true`,
match 3 is never played, and `results.matches.size() = 1`. -/
theorem disq_scenario_amended :
    doubleToInt (((3 : ℕ) : ℚ) * disqScenarioSettings.disqualification_rate) = 1 ∧
    (PlayTournament disqScenarioSettings 2 3 [true, true]
        [disqScenarioBadMatch, disqScenarioBadMatch, disqScenarioCleanMatch]).corrupted_matches
      = [2, 0] ∧
    (PlayTournament disqScenarioSettings 2 3 [true, true]
        [disqScenarioBadMatch, disqScenarioBadMatch, disqScenarioCleanMatch]).disqualified
      = [true, false] ∧
    (PlayTournament disqScenarioSettings 2 3 [true, true]
        [disqScenarioBadMatch, disqScenarioBadMatch, disqScenarioCleanMatch]).restarts
      = [1, 0] ∧
    (PlayTournament disqScenarioSettings 2 3 [true, true]
        [disqScenarioBadMatch, disqScenarioBadMatch,
          disqScenarioCleanMatch]).matchesList.length = 1 := by
  refine ⟨disqScenario_threshold, ?_⟩
  rw [disqScenario_playTournament]
  decide

/-- C7: if any bot fails the `ready` handshake, the tournament aborts
before any match: every failing bot gets `corrupted_matches[pl] =
num_matches`, every bot that answered correctly keeps 0, and no match is
recorded. -/
theorem aborted_on_failed_ready (settings : TournamentSettings)
    (num_bots num_matches : Nat) (start_ok : List Bool)
    (schedule : List MatchOutcome)
    (hfail : ∃ pl, pl < num_bots ∧ start_ok.getD pl true = false) :
    (PlayTournament settings num_bots num_matches start_ok schedule).matchesList
        = [] ∧
    ∀ pl, pl < num_bots →
      (PlayTournament settings num_bots num_matches start_ok
          schedule).corrupted_matches.getD pl 0
        = if start_ok.getD pl true then 0 else num_matches := by
  obtain ⟨pl0, hpl0, hko⟩ := hfail
  have hok : ((List.range num_bots).all (fun pl => start_ok.getD pl true)) = false := by
    cases hall : (List.range num_bots).all (fun pl => start_ok.getD pl true) with
    | false => rfl
    | true =>
        have := List.all_eq_true.mp hall pl0 (List.mem_range.mpr hpl0)
        simp only [this] at hko
        exact absurd hko (by simp)
  have hok' : ¬ (((List.range num_bots).all (fun pl => start_ok.getD pl true)) = true) := by
    rw [hok]
    simp
  rw [PlayTournament, if_neg hok']
  refine ⟨rfl, ?_⟩
  intro pl hpl
  show (startCorrupted num_matches num_bots start_ok).getD pl 0 = _
  rw [startCorrupted, getD_map_range _ _ _ _ hpl]

/-- C7 witness: two bots, the second fails `ready`, five prospective
matches. -/
theorem aborted_on_failed_ready_witness :
    (PlayTournament disqScenarioSettings 2 5 [true, false] []).matchesList = [] ∧
    ∀ pl, pl < 2 →
      (PlayTournament disqScenarioSettings 2 5
          [true, false] []).corrupted_matches.getD pl 0
        = if [true, false].getD pl true then 0 else 5 :=
  aborted_on_failed_ready disqScenarioSettings 2 5 [true, false] []
    ⟨1, by decide, by decide⟩

end HigcReferee
